import Mathlib

/-!
Verification of the fencio-dev/guard decision pipeline.

This file shallowly embeds the parts of the repository that the checked
properties talk about:

* `management_plane/app/applicability.py` — the rule-family applicability
  evaluator (`evaluate_applicability` and its core/soft rules);
* `management_plane/app/endpoints/intents.py` — the `compare_intent`
  enforcement endpoint (deny-first aggregation, evidence, fail-closed and
  cold-start branches);
* `management_plane/app/encoding.py` — the anchor builders
  (`build_boundary_*_anchors`) and `encode_anchors_to_32d`;
* `management_plane/app/services/session_store.py` — the per-agent session
  table and its operations;
* `sdk/python/tupl/agent.py` together with `sdk/python/tupl/client.py` and
  `sdk/python/tupl/data_plane_client.py` — the streaming proxy's per-tool-call
  enforcement step and its invocation entry points.

Numeric similarity/threshold values are modelled with `ℚ`; the Rust semantic
sandbox (`sandbox.compare`, whose source is not part of the Python tree) is
kept opaque as a function argument `cmp : DesignBoundary → ℕ × Sims`, exactly
as `compare_intent` treats it (an opaque per-boundary producer of a local
decision and four per-slice similarities).
-/

namespace Guard

/-! ## Data model

Modelled from the spec: the v1.1/v1.2 Pydantic classes `IntentEvent`, `Actor`,
`Resource`, `Data`, `Risk`, `DesignBoundary`, `BoundaryScope`, `BoundaryRules`,
`BoundaryConstraints`, `ActionConstraint`, `ResourceConstraint`,
`DataConstraint`, `RiskConstraint` are not under `src/` (the `models.py` under
`src/` carries a newer AARM shape); their field shapes are fixed by spec §3 and
by every call site in `applicability.py`, `encoding.py` and
`endpoints/intents.py`, which this embedding follows.  Optional string / list
fields keep Python's truthiness conventions at each use site.
-/

structure Actor where
  id : String
  type : String
  deriving DecidableEq, Repr

structure Resource where
  type : String
  name : Option String
  location : Option String
  deriving DecidableEq, Repr

structure DataInfo where
  sensitivity : List String
  pii : Option Bool
  volume : Option String
  deriving DecidableEq, Repr

structure Risk where
  authn : String
  deriving DecidableEq, Repr

structure IntentEvent where
  id : String
  actor : Actor
  action : String
  resource : Resource
  data : DataInfo
  risk : Risk
  deriving DecidableEq, Repr

structure ActionConstraint where
  actions : List String
  actor_types : List String
  deriving DecidableEq, Repr

structure ResourceConstraint where
  types : List String
  locations : List String
  names : List String
  deriving DecidableEq, Repr

structure DataConstraint where
  sensitivity : List String
  pii : Option Bool
  volume : Option String
  deriving DecidableEq, Repr

structure RiskConstraint where
  authn : String
  deriving DecidableEq, Repr

structure BoundaryConstraints where
  action : ActionConstraint
  resource : ResourceConstraint
  data : DataConstraint
  risk : RiskConstraint
  deriving DecidableEq, Repr

structure BoundaryScope where
  tenantId : String
  domains : List String
  deriving DecidableEq, Repr

structure SliceThresholds where
  action : ℚ
  resource : ℚ
  data : ℚ
  risk : ℚ
  deriving DecidableEq, Repr

structure BoundaryRules where
  effect : String
  decision : String
  globalThreshold : Option ℚ
  thresholds : SliceThresholds
  deriving DecidableEq, Repr

structure DesignBoundary where
  id : String
  name : String
  status : String
  type : String
  scope : BoundaryScope
  rules : BoundaryRules
  constraints : BoundaryConstraints
  deriving DecidableEq, Repr

/-! ## Applicability evaluator (`app/applicability.py`) -/

/-- Tri-state outcome of one applicability rule. -/
inductive RDecision where
  | ruleMatch
  | ruleMismatch
  | ruleAbstain
  deriving DecidableEq, Repr

/-- Model of `RuleOutcome` of `applicability.py` (the free-text `reason` log string is
omitted; it is never read by any caller). -/
structure RuleOutcome where
  rule_id : String
  decision : RDecision
  weight : ℚ
  deriving DecidableEq, Repr

structure ApplicabilityResult where
  applicable : Bool
  score : ℚ
  outcomes : List RuleOutcome
  deriving DecidableEq, Repr

/-- One applicability rule: id, weight and its tri-state evaluation function
(the `kind` tag is implicit in membership of `coreRules` / `softRules`). -/
structure ARule where
  id : String
  weight : ℚ
  eval : IntentEvent → DesignBoundary → RDecision

/-- Model of `_ActionRule.evaluate`: intent.action ∈ boundary.constraints.action.actions. -/
def actionRule : ARule :=
  ⟨"ActionRule", 1, fun i b =>
    if i.action ∈ b.constraints.action.actions then .ruleMatch else .ruleMismatch⟩

/-- Model of `_ActorTypeRule.evaluate`: intent.actor.type ∈ boundary.constraints.action.actor_types. -/
def actorTypeRule : ARule :=
  ⟨"ActorTypeRule", 1, fun i b =>
    if i.actor.type ∈ b.constraints.action.actor_types then .ruleMatch else .ruleMismatch⟩

/-- Model of `_ResourceTypeRule.evaluate`: intent.resource.type ∈ boundary.constraints.resource.types. -/
def resourceTypeRule : ARule :=
  ⟨"ResourceTypeRule", 1, fun i b =>
    if i.resource.type ∈ b.constraints.resource.types then .ruleMatch else .ruleMismatch⟩

/-- Model of `_LocationRule.evaluate` (weight 0.5).  Python truthiness: an absent or
empty constraint list, and an absent or empty intent location, abstain. -/
def locationRule : ARule :=
  ⟨"LocationRule", 1/2, fun i b =>
    if b.constraints.resource.locations = [] then .ruleAbstain
    else match i.resource.location with
      | none => .ruleAbstain
      | some loc =>
        if loc = "" then .ruleAbstain
        else if loc ∈ b.constraints.resource.locations then .ruleMatch else .ruleMismatch⟩

/-- Model of `_PiiRule.evaluate` (weight 0.5); explicit `is None` checks on both sides. -/
def piiRule : ARule :=
  ⟨"PiiRule", 1/2, fun i b =>
    match b.constraints.data.pii with
    | none => .ruleAbstain
    | some target =>
      match i.data.pii with
      | none => .ruleAbstain
      | some value => if value = target then .ruleMatch else .ruleMismatch⟩

/-- Model of `_VolumeRule.evaluate` (weight 0.5); explicit `is None` checks on both sides. -/
def volumeRule : ARule :=
  ⟨"VolumeRule", 1/2, fun i b =>
    match b.constraints.data.volume with
    | none => .ruleAbstain
    | some target =>
      match i.data.volume with
      | none => .ruleAbstain
      | some value => if value = target then .ruleMatch else .ruleMismatch⟩

/-- Model of `_DomainRule.evaluate` (weight 0.25): intent.resource.type ∈ scope.domains. -/
def domainRule : ARule :=
  ⟨"DomainRule", 1/4, fun i b =>
    if b.scope.domains = [] then .ruleAbstain
    else if i.resource.type ∈ b.scope.domains then .ruleMatch else .ruleMismatch⟩

/-- Model of `_ResourceNameRule.evaluate` (weight 0.25); truthiness on both sides. -/
def resourceNameRule : ARule :=
  ⟨"ResourceNameRule", 1/4, fun i b =>
    if b.constraints.resource.names = [] then .ruleAbstain
    else match i.resource.name with
      | none => .ruleAbstain
      | some nm =>
        if nm = "" then .ruleAbstain
        else if nm ∈ b.constraints.resource.names then .ruleMatch else .ruleMismatch⟩

/-- Model of `CORE_RULES`, in source order. -/
def coreRules : List ARule := [actionRule, actorTypeRule, resourceTypeRule]

/-- Model of `SOFT_RULES`, in source order. -/
def softRules : List ARule := [locationRule, piiRule, volumeRule, domainRule, resourceNameRule]

/-- The `RuleOutcome` a rule contributes for an (intent, boundary) pair. -/
def mkOutcome (r : ARule) (i : IntentEvent) (b : DesignBoundary) : RuleOutcome :=
  ⟨r.id, r.eval i b, r.weight⟩

/-- The core-rule loop of `evaluate_applicability`: outcomes accumulated in
order; the first mismatch stops the loop (second component `true`). -/
def runCore (i : IntentEvent) (b : DesignBoundary) : List ARule → List RuleOutcome × Bool
  | [] => ([], false)
  | r :: rest =>
    let o := mkOutcome r i b
    if o.decision = .ruleMismatch then ([o], true)
    else
      let (os, stopped) := runCore i b rest
      (o :: os, stopped)

/-- The soft-rule loop of `evaluate_applicability`: outcomes in order, plus the
running vote sum `num` and participation mass `den` (matching rules add their
weight to `num`, mismatching rules subtract it; abstainers contribute nothing). -/
def runSoft (i : IntentEvent) (b : DesignBoundary) : List ARule → List RuleOutcome × ℚ × ℚ
  | [] => ([], 0, 0)
  | r :: rest =>
    let o := mkOutcome r i b
    let (os, n, d) := runSoft i b rest
    match o.decision with
    | .ruleAbstain => (o :: os, n, d)
    | .ruleMatch => (o :: os, n + o.weight, d + o.weight)
    | .ruleMismatch => (o :: os, n - o.weight, d + o.weight)

/-- Model of `APPLICABILITY_MODE`: "soft" (default) or "strict". -/
inductive AppMode where
  | soft
  | strict
  deriving DecidableEq, Repr

/-- Model of `evaluate_applicability(intent, boundary)`.  `mode` and `minScore` stand
for the `APPLICABILITY_MODE` / `APPLICABILITY_MIN_SCORE` environment settings
(defaults: soft mode, minScore = 1/2). -/
def evaluate_applicability (mode : AppMode) (minScore : ℚ)
    (i : IntentEvent) (b : DesignBoundary) : ApplicabilityResult :=
  let (coreOutcomes, mismatched) := runCore i b coreRules
  if mismatched then ⟨false, 0, coreOutcomes⟩
  else
    let (softOutcomes, n, d) := runSoft i b softRules
    let outcomes := coreOutcomes ++ softOutcomes
    let score : ℚ := if d = 0 then 1 else (n + d) / (2 * d)
    match mode with
    | .strict =>
      if softOutcomes.any (fun o => o.decision = .ruleMismatch) then
        ⟨false, score, outcomes⟩
      else ⟨decide (minScore ≤ score), score, outcomes⟩
    | .soft => ⟨decide (minScore ≤ score), score, outcomes⟩

/-! ## Intent comparison endpoint (`app/endpoints/intents.py`) -/

/-- A 4-element `slice_similarities` value `[action, resource, data, risk]`. -/
structure Sims where
  action : ℚ
  resource : ℚ
  data : ℚ
  risk : ℚ
  deriving DecidableEq, Repr

/-- Model of `BoundaryEvidence` of `models.py` (the defaulted `triggering_slice` /
`anchor_matched` strings stay at their defaults in `compare_intent` and are
omitted). -/
structure BoundaryEvidence where
  boundary_id : String
  boundary_name : String
  effect : String
  decision : ℕ
  similarities : Sims
  deriving DecidableEq, Repr

/-- Model of `ComparisonResult` of `models.py` restricted to the fields `compare_intent`
sets (`timestamp` is wall-clock and omitted; `decision_name`,
`modified_params`, `drift_triggered` keep their defaults). -/
structure ComparisonResult where
  decision : ℕ
  slice_similarities : Sims
  boundaries_evaluated : ℕ
  evidence : List BoundaryEvidence
  deriving DecidableEq, Repr

/-- Return value of the endpoint model: the `ComparisonResult` plus the tags of
the `logger.warning` calls the taken path emits (in order). -/
structure CompareOutcome where
  result : ComparisonResult
  warnings : List String
  deriving DecidableEq, Repr

/-- Per-boundary outcome of the opaque Rust sandbox: `(decision, similarities)`. -/
abbrev BResult := DesignBoundary × ℕ × Sims

/-- Model of `active_boundaries`: the active members of the boundary store, in store
order. -/
def activeOf (store : List DesignBoundary) : List DesignBoundary :=
  store.filter (fun b => b.status = "active")

/-- Model of `applicable_boundaries`: the active boundaries accepted by
`is_boundary_applicable` (which returns `evaluate_applicability(...).applicable`). -/
def applicableOf (mode : AppMode) (minScore : ℚ) (event : IntentEvent)
    (active : List DesignBoundary) : List DesignBoundary :=
  active.filter (fun b => (evaluate_applicability mode minScore event b).applicable)

/-- Model of `boundary_results`: each applicable boundary paired with the sandbox's
`(decision, similarities)` for it, in evaluation order. -/
def resultsOf (cmp : DesignBoundary → ℕ × Sims)
    (applicable : List DesignBoundary) : List BResult :=
  applicable.map (fun b => (b, cmp b))

/-- The evidence record built for one evaluated boundary. -/
def mkEvidence (r : BResult) : BoundaryEvidence :=
  ⟨r.1.id, r.1.name, r.1.rules.effect, r.2.1, r.2.2⟩

/-- Model of `evidence`: one record per evaluated boundary, in evaluation order. -/
def evidenceOf (results : List BResult) : List BoundaryEvidence :=
  results.map mkEvidence

/-- Model of `deny_results`: the evaluated boundaries whose effect is "deny". -/
def denyOf (results : List BResult) : List BResult :=
  results.filter (fun r => r.1.rules.effect = "deny")

/-- Model of `allow_results`: the evaluated boundaries whose effect is "allow". -/
def allowOf (results : List BResult) : List BResult :=
  results.filter (fun r => r.1.rules.effect = "allow")

/-- Model of `mandatory_allow_results`: the allow results of mandatory boundaries. -/
def mandatoryAllowOf (results : List BResult) : List BResult :=
  (allowOf results).filter (fun r => r.1.type = "mandatory")

/-- The first deny result whose local decision is 1 (the short-circuiting deny
of aggregation phase 1), if any. -/
def firstMatchingDeny (results : List BResult) : Option BResult :=
  (denyOf results).find? (fun r => r.2.1 = 1)

/-- Element-wise sum of similarity quadruples. -/
def sumSims (l : List Sims) : Sims :=
  l.foldr (fun s acc => ⟨s.action + acc.action, s.resource + acc.resource,
    s.data + acc.data, s.risk + acc.risk⟩) ⟨0, 0, 0, 0⟩

/-- Model of `avg_similarities`: element-wise mean over a list of quadruples. -/
def avgSims (l : List Sims) : Sims :=
  let n : ℚ := l.length
  ⟨(sumSims l).action / n, (sumSims l).resource / n,
   (sumSims l).data / n, (sumSims l).risk / n⟩

/-- Element-wise minimum of two similarity quadruples. -/
def minSims2 (s t : Sims) : Sims :=
  ⟨min s.action t.action, min s.resource t.resource,
   min s.data t.data, min s.risk t.risk⟩

/-- Model of `min_similarities`: element-wise minimum over a list of quadruples (only
ever used on a non-empty list, like Python's `min`). -/
def minSims : List Sims → Sims
  | [] => ⟨0, 0, 0, 0⟩
  | s :: rest => rest.foldl minSims2 s

/-- The deny-first aggregation of `compare_intent` (its two phases), producing
the final `(decision, slice_similarities)` from the per-boundary results. -/
def aggregate (results : List BResult) : ℕ × Sims :=
  match firstMatchingDeny results with
  | some r => (0, r.2.2)
  | none =>
    let mand := mandatoryAllowOf results
    if mand = [] then (0, ⟨0, 0, 0, 0⟩)
    else if mand.all (fun r => r.2.1 = 1) then (1, avgSims (mand.map (fun r => r.2.2)))
    else (0, minSims (mand.map (fun r => r.2.2)))

/-- Model of `compare_intent(event)`: the enforcement endpoint.  `cmp` is the opaque
Rust `sandbox.compare` applied to the (fixed) encoded intent vector and one
boundary's anchors/thresholds; `store` is the value list of
`_boundaries_store`; `mode`/`minScore` are the applicability environment
settings. -/
def compare_intent (cmp : DesignBoundary → ℕ × Sims) (mode : AppMode) (minScore : ℚ)
    (store : List DesignBoundary) (event : IntentEvent) : CompareOutcome :=
  let active := activeOf store
  if active = [] then
    ⟨⟨1, ⟨1, 1, 1, 1⟩, 0, []⟩, ["no_active_boundaries_default_allow"]⟩
  else
    let applicable := applicableOf mode minScore event active
    if applicable = [] then
      ⟨⟨0, ⟨0, 0, 0, 0⟩, 0, []⟩, ["no_applicable_boundaries_default_block"]⟩
    else
      let results := resultsOf cmp applicable
      let agg := aggregate results
      let warns :=
        if (firstMatchingDeny results).isNone ∧ mandatoryAllowOf results = [] then
          ["no_mandatory_allow_boundaries_default_block"]
        else []
      ⟨⟨agg.1, agg.2, applicable.length, evidenceOf results⟩, warns⟩

/-! ## Anchor generation (`app/encoding.py`) -/

/-- Python's `sorted` on a list of strings: the sorted permutation (unique
because `≤` on `String` is a total antisymmetric order). -/
def pySorted (l : List String) : List String :=
  l.insertionSort (· ≤ ·)

/-- Python's `str(bool)`. -/
def pyBoolStr : Bool → String
  | true => "True"
  | false => "False"

/-- Model of `build_boundary_action_anchors`: one anchor per (action, actor_type) pair,
both lists canonically sorted. -/
def build_boundary_action_anchors (b : DesignBoundary) : List String :=
  (pySorted b.constraints.action.actions).flatMap fun action =>
    (pySorted b.constraints.action.actor_types).map fun actor_type =>
      "action is " ++ action ++ " | actor_type equals " ++ actor_type

/-- Model of `build_boundary_resource_anchors`: sorted type × location product (with
`["unspecified"]` when the location list is falsy), then sorted names when the
name list is truthy. -/
def build_boundary_resource_anchors (b : DesignBoundary) : List String :=
  let types := pySorted b.constraints.resource.types
  let locations := pySorted
    (if b.constraints.resource.locations = [] then ["unspecified"]
     else b.constraints.resource.locations)
  (types.flatMap fun rtype =>
    locations.map fun location =>
      "resource_type is " ++ rtype ++ " | resource_location is " ++ location)
  ++ (if b.constraints.resource.names = [] then []
      else (pySorted b.constraints.resource.names).map fun nm =>
        "resource_name is " ++ nm)

/-- Model of `build_boundary_data_anchors`: sorted sensitivity × pii × volume product;
a `None` pii expands to `[True, False]`, a falsy volume to
`["single", "bulk"]`. -/
def build_boundary_data_anchors (b : DesignBoundary) : List String :=
  let pii_values : List Bool :=
    match b.constraints.data.pii with
    | some v => [v]
    | none => [true, false]
  let volumes : List String :=
    match b.constraints.data.volume with
    | some v => if v = "" then ["single", "bulk"] else [v]
    | none => ["single", "bulk"]
  (pySorted b.constraints.data.sensitivity).flatMap fun sensitivity =>
    pii_values.flatMap fun pii =>
      volumes.map fun volume =>
        "sensitivity is " ++ sensitivity ++ " | pii is " ++ pyBoolStr pii
          ++ " | volume is " ++ volume

/-- Model of `build_boundary_risk_anchors`: a single anchor from the authn value. -/
def build_boundary_risk_anchors (b : DesignBoundary) : List String :=
  ["authn is " ++ b.constraints.risk.authn]

/-- Model of `encode_anchors_to_32d`: truncate the anchor texts at `maxAnchors`, encode
each text (`enc` stands for the deterministic embed → project → normalise
pipeline of one slot, a pure function of the text), and zero-pad the rows to
`maxAnchors`; the true count is returned alongside. -/
def encode_anchors_to_32d {α : Type} (enc : String → α) (zero : α)
    (maxAnchors : ℕ) (anchor_texts : List String) : List α × ℕ :=
  let texts := if anchor_texts.length > maxAnchors
    then anchor_texts.take maxAnchors else anchor_texts
  let vecs := texts.map enc
  (vecs ++ List.replicate (maxAnchors - vecs.length) zero, texts.length)

/-! ## Session store (`app/services/session_store.py`) -/

/-- One `action_history` entry `{request_id, action, decision, ts}`. -/
structure HistoryEntry where
  request_id : String
  action : String
  decision : String
  ts : ℚ
  deriving DecidableEq, Repr

/-- One `agent_sessions` row. -/
structure SessionRow where
  action_history : List HistoryEntry
  call_count : ℕ
  last_seen_at : ℚ
  created_at : ℚ
  initial_vector : Option (List ℚ)
  cumulative_drift : ℚ
  last_vector : Option (List ℚ)
  deriving DecidableEq, Repr

/-- The `agent_sessions` table, keyed by the `agent_id` primary key. -/
def SessionDB : Type := String → Option SessionRow

/-- Model of `write_call(agent_id, request_id, action, decision)`: upsert the row,
appending to `action_history`; a fresh row gets the schema defaults
(`initial_vector` NULL, `cumulative_drift` 0, `last_vector` NULL). -/
def write_call (agentId requestId action decision : String) (now : ℚ)
    (db : SessionDB) : SessionDB :=
  fun k =>
    if k = agentId then
      match db agentId with
      | none => some ⟨[⟨requestId, action, decision, now⟩], 1, now, now, none, 0, none⟩
      | some r => some { r with
          action_history := r.action_history ++ [⟨requestId, action, decision, now⟩],
          call_count := r.call_count + 1,
          last_seen_at := now }
    else db k

/-- Model of `initialize_session_vector(agent_id, vector)`: the conditional
`UPDATE ... WHERE agent_id = ? AND initial_vector IS NULL`; a present baseline
or an absent row leaves the table untouched. -/
def initSessionVector (agentId : String) (vector : List ℚ) (db : SessionDB) : SessionDB :=
  fun k =>
    if k = agentId then
      match db agentId with
      | none => none
      | some r =>
        if r.initial_vector = none then some { r with initial_vector := some vector }
        else some r
    else db k

/-- Dot product of the stored baseline with the current vector (`np.dot`). -/
def dotQ (xs ys : List ℚ) : ℚ :=
  ((xs.zip ys).map (fun p => p.1 * p.2)).foldr (· + ·) 0

/-- Model of `compute_and_update_drift(agent_id, current_vector)`: returns 0 without
mutation when the row or its baseline is absent; otherwise adds
`max 0 (1 - dot(baseline, current))` to `cumulative_drift`, stores the current
vector as `last_vector`, refreshes `last_seen_at` and returns the per-call
drift. -/
def compute_and_update_drift (agentId : String) (current : List ℚ) (now : ℚ)
    (db : SessionDB) : SessionDB × ℚ :=
  match db agentId with
  | none => (db, 0)
  | some r =>
    match r.initial_vector with
    | none => (db, 0)
    | some iv =>
      let drift := max 0 (1 - dotQ iv current)
      (fun k =>
        if k = agentId then
          some { r with
            cumulative_drift := r.cumulative_drift + drift,
            last_vector := some current,
            last_seen_at := now }
        else db k, drift)

/-- Model of `cleanup_expired()`: delete rows idle past 30 minutes or older than
24 hours. -/
def cleanup_expired (now : ℚ) (db : SessionDB) : SessionDB :=
  fun k =>
    match db k with
    | none => none
    | some r =>
      if r.last_seen_at < now - 1800 ∨ r.created_at < now - 86400 then none
      else some r

/-! ## Streaming proxy enforcement (`sdk/python/tupl/agent.py`,
`client.py`, `data_plane_client.py`) -/

/-- The SDK-side comparison result, restricted to the field the proxy's
decision handling reads. -/
structure SdkResult where
  decision : ℕ
  deriving DecidableEq, Repr

/-- gRPC status classes distinguished by `DataPlaneClient.enforce`. -/
inductive GrpcStatus where
  | unavailable
  | deadlineExceeded
  | other
  deriving DecidableEq, Repr

/-- Outcome of the raw gRPC `Enforce` call. -/
inductive GrpcOutcome where
  | ok (r : SdkResult)
  | rpcError (s : GrpcStatus)
  deriving DecidableEq, Repr

/-- Outcome of the raw HTTP POST in `TuplClient.enforce_intent` (httpx timeout,
connection and status errors are all `httpx.HTTPError`). -/
inductive HttpOutcome where
  | ok (r : SdkResult)
  | httpError
  deriving DecidableEq, Repr

/-- The `DataPlaneError` raised by either client on a transport failure. -/
inductive DataPlaneFailure where
  | unavailable
  | deadlineExceeded
  | otherRpc
  | httpTransport
  deriving DecidableEq, Repr

/-- Model of `DataPlaneClient.enforce`: every `grpc.RpcError` becomes a
`DataPlaneError` (fail-closed mapping by status code). -/
def dataPlaneEnforce : GrpcOutcome → Except DataPlaneFailure SdkResult
  | .ok r => .ok r
  | .rpcError .unavailable => .error .unavailable
  | .rpcError .deadlineExceeded => .error .deadlineExceeded
  | .rpcError .other => .error .otherRpc

/-- Model of `TuplClient.enforce_intent`: every `httpx.HTTPError` becomes a
`DataPlaneError`. -/
def enforceIntentHttp : HttpOutcome → Except DataPlaneFailure SdkResult
  | .ok r => .ok r
  | .httpError => .error .httpTransport

/-- What one tool-call enforcement in `_enforce_tool_calls` does to the
caller. -/
inductive ToolCallOutcome where
  | allowed
  | softBlocked
  | raisedPermissionError
  deriving DecidableEq, Repr

/-- The decision handling of `_enforce_tool_calls` once a `ComparisonResult`
arrived: BLOCK soft-blocks or raises depending on `soft_block`; ALLOW
continues. -/
def handleDecision (softBlock : Bool) (res : SdkResult) : ToolCallOutcome :=
  if res.decision = 0 then
    if softBlock then .softBlocked else .raisedPermissionError
  else .allowed

/-- One tool-call enforcement of `SecureGraphProxy._enforce_tool_calls`: pick
the client by `enforcement_mode`, turn a caught `DataPlaneError` into a raised
`PermissionError`, otherwise handle the decision. -/
def enforceToolCall (enforcementMode : String) (softBlock : Bool)
    (grpcRes : GrpcOutcome) (httpRes : HttpOutcome) : ToolCallOutcome :=
  let transport :=
    if enforcementMode = "data_plane" then dataPlaneEnforce grpcRes
    else enforceIntentHttp httpRes
  match transport with
  | .error _ => .raisedPermissionError
  | .ok res => handleDecision softBlock res

/-- The deduplication loop of `_enforce_tool_calls` over the tool-call ids of
one streamed state, in an all-ALLOW pass: already-enforced ids are skipped,
fresh ids are enforced and marked.  Returns the updated enforced-id set and
the ids actually enforced, in order. -/
def processToolCallIds (enforced : List String) : List String → List String × List String
  | [] => (enforced, [])
  | tid :: rest =>
    if tid ∈ enforced then processToolCallIds enforced rest
    else
      let (e, done) := processToolCallIds (enforced ++ [tid]) rest
      (e, tid :: done)

/-- Model of `SecureGraphProxy.invoke`: clears `_enforced_tool_call_ids` on entry. -/
def invokeEntryEnforcedIds (_prev : List String) : List String := []

/-- Model of `SecureGraphProxy.stream`: clears `_enforced_tool_call_ids` on entry. -/
def streamEntryEnforcedIds (_prev : List String) : List String := []

/-- Model of `SecureGraphProxy.ainvoke`: no clear of `_enforced_tool_call_ids` appears
in its body; the set carried over from earlier invocations survives. -/
def ainvokeEntryEnforcedIds (prev : List String) : List String := prev

/-- Model of `SecureGraphProxy.astream`: no clear of `_enforced_tool_call_ids` appears
in its body; the set carried over from earlier invocations survives. -/
def astreamEntryEnforcedIds (prev : List String) : List String := prev

/-! ## Spec-side reformulations

These definitions follow the spec's wording (not the code) and are used to
state the applicability claim as a relation between the implementation above
and the spec's score formula. -/

/-- The outcomes a list of rules contributes, in order. -/
def outcomesOf (i : IntentEvent) (b : DesignBoundary) (rules : List ARule) : List RuleOutcome :=
  rules.map (fun r => mkOutcome r i b)

/-- The signed vote `w·sign` of one participating soft outcome. -/
def signedW (o : RuleOutcome) : ℚ :=
  if o.decision = .ruleMatch then o.weight else -o.weight

/-- The participating (non-abstaining) soft-rule outcomes. -/
def participatingSoft (i : IntentEvent) (b : DesignBoundary) : List RuleOutcome :=
  (outcomesOf i b softRules).filter (fun o => o.decision ≠ .ruleAbstain)

/-- Sum `Σ w·sign` over participating soft outcomes. -/
def softNum (i : IntentEvent) (b : DesignBoundary) : ℚ :=
  ((participatingSoft i b).map signedW).sum

/-- Sum `Σ w` over participating soft outcomes. -/
def softDen (i : IntentEvent) (b : DesignBoundary) : ℚ :=
  ((participatingSoft i b).map RuleOutcome.weight).sum

/-- The spec's soft score: `(Σ w·sign + Σ w) / (2 Σ w)`, mapped to `[0,1]`,
and 1 when no soft rule participates. -/
def softScore (i : IntentEvent) (b : DesignBoundary) : ℚ :=
  if softDen i b = 0 then 1 else (softNum i b + softDen i b) / (2 * softDen i b)

/-! ## Concrete sample data

Used by the closed witness/counterexample theorems.  All soft rules abstain on
these boundaries (no location/pii/volume/domain/name constraints), so their
applicability score is exactly 1. -/

def sampleIntent : IntentEvent :=
  ⟨"evt_1", ⟨"user_alice", "user"⟩, "read",
   ⟨"database", some "users_db", some "cloud"⟩,
   ⟨["internal"], some false, some "single"⟩, ⟨"required"⟩⟩

/-- Constraints whose soft rules all abstain. -/
def abstainConstraints (acts actorTypes : List String) : BoundaryConstraints :=
  ⟨⟨acts, actorTypes⟩, ⟨["database"], [], []⟩, ⟨["internal"], none, none⟩, ⟨"required"⟩⟩

def sampleThresholds : SliceThresholds :=
  ⟨mkRat 4 5, mkRat 3 4, mkRat 4 5, mkRat 4 5⟩

def allowB : DesignBoundary :=
  ⟨"allow_1", "Safe Read", "active", "mandatory", ⟨"tenant_test", []⟩,
   ⟨"allow", "min", none, sampleThresholds⟩, abstainConstraints ["read"] ["user"]⟩

def denyB : DesignBoundary :=
  ⟨"deny_1", "No Read", "active", "mandatory", ⟨"tenant_test", []⟩,
   ⟨"deny", "min", none, sampleThresholds⟩, abstainConstraints ["read"] ["user"]⟩

def allowWriteB : DesignBoundary :=
  ⟨"allow_2", "Write Only", "active", "mandatory", ⟨"tenant_test", []⟩,
   ⟨"allow", "min", none, sampleThresholds⟩, abstainConstraints ["write"] ["user"]⟩

def disabledB : DesignBoundary :=
  ⟨"allow_3", "Disabled Read", "disabled", "mandatory", ⟨"tenant_test", []⟩,
   ⟨"allow", "min", none, sampleThresholds⟩, abstainConstraints ["read"] ["user"]⟩

def optionalAllowB : DesignBoundary :=
  ⟨"allow_opt", "Optional Read", "active", "optional", ⟨"tenant_test", []⟩,
   ⟨"allow", "min", none, sampleThresholds⟩, abstainConstraints ["read"] ["user"]⟩

/-- A sandbox stub that lets every boundary match. -/
def cmpAllow1 : DesignBoundary → ℕ × Sims := fun _ => (1, ⟨1, 1, 1, 1⟩)

/-- A sandbox stub on which exactly the deny boundaries match. -/
def cmpDenyMatch : DesignBoundary → ℕ × Sims := fun b =>
  if b.rules.effect = "deny" then (1, ⟨1, 0, 1, 0⟩) else (0, ⟨0, 0, 0, 0⟩)

/-- Boundary with several multi-element constraint lists (for the anchor
permutation-invariance witness). -/
def permB1 : DesignBoundary :=
  ⟨"b1", "Perm One", "active", "mandatory", ⟨"tenant_test", []⟩,
   ⟨"allow", "min", none, sampleThresholds⟩,
   ⟨⟨["read", "write"], ["user", "agent"]⟩,
    ⟨["database", "api"], ["cloud", "onprem"], ["x", "y"]⟩,
    ⟨["internal", "public"], some false, some "single"⟩, ⟨"required"⟩⟩⟩

/-- Model of `permB1` with every constraint list reversed. -/
def permB2 : DesignBoundary :=
  ⟨"b2", "Perm Two", "active", "mandatory", ⟨"tenant_test", []⟩,
   ⟨"allow", "min", none, sampleThresholds⟩,
   ⟨⟨["write", "read"], ["agent", "user"]⟩,
    ⟨["api", "database"], ["onprem", "cloud"], ["y", "x"]⟩,
    ⟨["public", "internal"], some false, some "single"⟩, ⟨"required"⟩⟩⟩

/-- A session row whose baseline vector is already set. -/
def row0 : SessionRow := ⟨[], 1, 100, 100, some [1, 0], 0, none⟩

/-- A one-row session table. -/
def db0 : SessionDB := fun k => if k = "agent_a" then some row0 else none

/-! ## Reduction lemmas for `compare_intent` -/

theorem compare_intent_cold (cmp : DesignBoundary → ℕ × Sims) (mode : AppMode)
    (minScore : ℚ) (store : List DesignBoundary) (event : IntentEvent)
    (h : activeOf store = []) :
    compare_intent cmp mode minScore store event =
      ⟨⟨1, ⟨1, 1, 1, 1⟩, 0, []⟩, ["no_active_boundaries_default_allow"]⟩ := by
  simp only [compare_intent]
  rw [if_pos h]

theorem compare_intent_no_applicable (cmp : DesignBoundary → ℕ × Sims) (mode : AppMode)
    (minScore : ℚ) (store : List DesignBoundary) (event : IntentEvent)
    (h1 : activeOf store ≠ []) (h2 : applicableOf mode minScore event (activeOf store) = []) :
    compare_intent cmp mode minScore store event =
      ⟨⟨0, ⟨0, 0, 0, 0⟩, 0, []⟩, ["no_applicable_boundaries_default_block"]⟩ := by
  simp only [compare_intent]
  rw [if_neg h1, if_pos h2]

theorem compare_intent_main (cmp : DesignBoundary → ℕ × Sims) (mode : AppMode)
    (minScore : ℚ) (store : List DesignBoundary) (event : IntentEvent)
    (h1 : activeOf store ≠ []) (h2 : applicableOf mode minScore event (activeOf store) ≠ []) :
    (compare_intent cmp mode minScore store event).result =
      ⟨(aggregate (resultsOf cmp (applicableOf mode minScore event (activeOf store)))).1,
       (aggregate (resultsOf cmp (applicableOf mode minScore event (activeOf store)))).2,
       (applicableOf mode minScore event (activeOf store)).length,
       evidenceOf (resultsOf cmp (applicableOf mode minScore event (activeOf store)))⟩ := by
  simp only [compare_intent]
  rw [if_neg h1, if_neg h2]

theorem applicableOf_nil (mode : AppMode) (minScore : ℚ) (event : IntentEvent) :
    applicableOf mode minScore event [] = [] := rfl

theorem activeOf_ne_of_applicable_ne {mode : AppMode} {minScore : ℚ}
    {event : IntentEvent} {store : List DesignBoundary}
    (h : applicableOf mode minScore event (activeOf store) ≠ []) :
    activeOf store ≠ [] := by
  intro hh
  exact h (by rw [hh]; rfl)

theorem aggregate_of_deny {results : List BResult} {r : BResult}
    (h : firstMatchingDeny results = some r) :
    aggregate results = (0, r.2.2) := by
  simp only [aggregate, h]

theorem aggregate_of_no_deny {results : List BResult}
    (h : firstMatchingDeny results = none) :
    aggregate results =
      (if mandatoryAllowOf results = [] then (0, ⟨0, 0, 0, 0⟩)
       else if (mandatoryAllowOf results).all (fun r => r.2.1 = 1) then
         (1, avgSims ((mandatoryAllowOf results).map (fun r => r.2.2)))
       else (0, minSims ((mandatoryAllowOf results).map (fun r => r.2.2)))) := by
  simp only [aggregate, h]

theorem denyOf_filter_not_optional_allow (results : List BResult) :
    denyOf (results.filter
      (fun x => ¬(x.1.rules.effect = "allow" ∧ x.1.type = "optional"))) = denyOf results := by
  unfold denyOf
  rw [List.filter_filter]
  refine List.filter_congr ?_
  intro x _
  by_cases hx : x.1.rules.effect = "deny"
  · have hne : ("deny" : String) ≠ "allow" := by decide
    simp [hx, hne]
  · simp [hx]

theorem mandatoryAllowOf_filter_not_optional_allow (results : List BResult) :
    mandatoryAllowOf (results.filter
      (fun x => ¬(x.1.rules.effect = "allow" ∧ x.1.type = "optional"))) =
      mandatoryAllowOf results := by
  unfold mandatoryAllowOf allowOf
  rw [List.filter_filter, List.filter_filter, List.filter_filter]
  refine List.filter_congr ?_
  intro x _
  by_cases hm : x.1.type = "mandatory"
  · by_cases ha : x.1.rules.effect = "allow"
    · have hne : ("mandatory" : String) ≠ "optional" := by decide
      simp [hm, ha, hne]
    · simp [hm, ha]
  · simp [hm]

theorem aggregate_drop_optional_allow (results : List BResult) :
    aggregate (results.filter
      (fun x => ¬(x.1.rules.effect = "allow" ∧ x.1.type = "optional"))) = aggregate results := by
  unfold aggregate firstMatchingDeny
  rw [denyOf_filter_not_optional_allow, mandatoryAllowOf_filter_not_optional_allow]

theorem runCore_no_mismatch (i : IntentEvent) (b : DesignBoundary) (rules : List ARule)
    (h : ∀ r ∈ rules, r.eval i b ≠ .ruleMismatch) :
    runCore i b rules = (outcomesOf i b rules, false) := by
  induction rules with
  | nil => rfl
  | cons r rest ih =>
    have hr : ¬((mkOutcome r i b).decision = .ruleMismatch) := h r (List.mem_cons_self r rest)
    simp only [runCore]
    rw [if_neg hr, ih (fun x hx => h x (List.mem_cons_of_mem r hx))]
    simp [outcomesOf]

theorem runCore_mismatch (i : IntentEvent) (b : DesignBoundary) (rules : List ARule)
    (h : ∃ r ∈ rules, r.eval i b = .ruleMismatch) :
    (runCore i b rules).2 = true ∧
    ∀ o ∈ (runCore i b rules).1, o.rule_id ∈ rules.map ARule.id := by
  induction rules with
  | nil => simp at h
  | cons r rest ih =>
    by_cases hr : (mkOutcome r i b).decision = .ruleMismatch
    · simp only [runCore]
      rw [if_pos hr]
      refine ⟨rfl, ?_⟩
      intro o ho
      simp only [List.mem_singleton] at ho
      simp [ho, mkOutcome]
    · obtain ⟨x, hx, hxm⟩ := h
      have hx' : x ∈ rest := by
        rcases List.mem_cons.mp hx with hxr | hxr
        · exact absurd (by rw [hxr] at hxm; exact hxm) hr
        · exact hxr
      obtain ⟨ih1, ih2⟩ := ih ⟨x, hx', hxm⟩
      simp only [runCore]
      rw [if_neg hr]
      rcases hrc : runCore i b rest with ⟨os, stopped⟩
      rw [hrc] at ih1 ih2
      refine ⟨ih1, ?_⟩
      intro o ho
      rcases List.mem_cons.mp ho with hor | hor
      · simp [hor, mkOutcome]
      · simp only [List.map_cons, List.mem_cons]
        exact Or.inr (ih2 o hor)

theorem runSoft_spec (i : IntentEvent) (b : DesignBoundary) (rules : List ARule) :
    runSoft i b rules =
      (outcomesOf i b rules,
       (((outcomesOf i b rules).filter (fun o => o.decision ≠ .ruleAbstain)).map signedW).sum,
       (((outcomesOf i b rules).filter
          (fun o => o.decision ≠ .ruleAbstain)).map RuleOutcome.weight).sum) := by
  induction rules with
  | nil => simp [runSoft, outcomesOf]
  | cons r rest ih =>
    simp only [runSoft, ih, outcomesOf, List.map_cons, List.filter_cons]
    cases hdec : (mkOutcome r i b).decision with
    | ruleAbstain => simp [hdec]
    | ruleMatch => simp [hdec, signedW, add_comm]
    | ruleMismatch => simp [hdec, signedW, sub_eq_add_neg, add_comm]

theorem softRules_weight_nonneg : ∀ r ∈ softRules, 0 ≤ r.weight := by
  intro r hr
  simp only [softRules, List.mem_cons, List.not_mem_nil, or_false] at hr
  rcases hr with h | h | h | h | h <;>
    (rw [h]; norm_num [locationRule, piiRule, volumeRule, domainRule, resourceNameRule])

theorem signedW_sum_bounds (os : List RuleOutcome) (h : ∀ o ∈ os, 0 ≤ o.weight) :
    -((os.map RuleOutcome.weight).sum) ≤ (os.map signedW).sum ∧
    (os.map signedW).sum ≤ (os.map RuleOutcome.weight).sum := by
  induction os with
  | nil => simp
  | cons o rest ih =>
    have ho := h o (List.mem_cons_self o rest)
    obtain ⟨ih1, ih2⟩ := ih (fun x hx => h x (List.mem_cons_of_mem o hx))
    have hs1 : -o.weight ≤ signedW o := by
      unfold signedW
      split <;> linarith
    have hs2 : signedW o ≤ o.weight := by
      unfold signedW
      split <;> linarith
    simp only [List.map_cons, List.sum_cons]
    constructor <;> [skip; skip] <;> linarith

theorem participating_weight_nonneg (i : IntentEvent) (b : DesignBoundary) :
    ∀ o ∈ participatingSoft i b, 0 ≤ o.weight := by
  intro o ho
  have hmem : o ∈ outcomesOf i b softRules := (List.mem_filter.mp ho).1
  obtain ⟨r, hr, rfl⟩ := List.mem_map.mp hmem
  exact softRules_weight_nonneg r hr

theorem softScore_bounds (i : IntentEvent) (b : DesignBoundary) :
    0 ≤ softScore i b ∧ softScore i b ≤ 1 := by
  have hw := participating_weight_nonneg i b
  have hb := signedW_sum_bounds (participatingSoft i b) hw
  have hdnn : 0 ≤ softDen i b := by
    unfold softDen
    apply List.sum_nonneg
    intro x hx
    obtain ⟨o, ho, rfl⟩ := List.mem_map.mp hx
    exact hw o ho
  unfold softScore
  split
  · norm_num
  · rename_i hden
    have hpos : 0 < softDen i b := lt_of_le_of_ne hdnn (Ne.symm hden)
    have hnum1 : -(softDen i b) ≤ softNum i b := hb.1
    have hnum2 : softNum i b ≤ softDen i b := hb.2
    constructor
    · apply div_nonneg _ (by linarith)
      linarith
    · rw [div_le_one (by linarith)]
      linarith

theorem softScore_all_abstain (i : IntentEvent) (b : DesignBoundary)
    (h : ∀ r ∈ softRules, r.eval i b = .ruleAbstain) :
    softScore i b = 1 := by
  have hp : participatingSoft i b = [] := by
    unfold participatingSoft
    rw [List.filter_eq_nil_iff]
    intro o ho
    obtain ⟨r, hr, rfl⟩ := List.mem_map.mp ho
    simp [mkOutcome, h r hr]
  have hd : softDen i b = 0 := by
    unfold softDen
    rw [hp]
    rfl
  unfold softScore
  rw [if_pos hd]

theorem pySorted_perm_eq {l₁ l₂ : List String} (h : l₁.Perm l₂) :
    pySorted l₁ = pySorted l₂ := by
  apply List.eq_of_perm_of_sorted (r := (· ≤ · : String → String → Prop))
  · exact (List.perm_insertionSort _ l₁).trans (h.trans (List.perm_insertionSort _ l₂).symm)
  · exact List.sorted_insertionSort _ l₁
  · exact List.sorted_insertionSort _ l₂

/-! ## Claim theorems -/

/-- C2: for every intent evaluated when at least one active policy exists but
the applicability filter rejects every one of them, the enforcement call
returns decision 0 (BLOCK) with slice_similarities exactly `[0, 0, 0, 0]` and
an empty evidence list. -/
theorem no_applicable_fail_closed (cmp : DesignBoundary → ℕ × Sims) (mode : AppMode)
    (minScore : ℚ) (store : List DesignBoundary) (event : IntentEvent)
    (h1 : activeOf store ≠ []) (h2 : applicableOf mode minScore event (activeOf store) = []) :
    (compare_intent cmp mode minScore store event).result.decision = 0 ∧
    (compare_intent cmp mode minScore store event).result.slice_similarities = ⟨0, 0, 0, 0⟩ ∧
    (compare_intent cmp mode minScore store event).result.evidence = [] := by
  rw [compare_intent_no_applicable cmp mode minScore store event h1 h2]
  exact ⟨rfl, rfl, rfl⟩

theorem no_applicable_fail_closed_witness :
    (compare_intent cmpAllow1 AppMode.soft 0 [allowWriteB] sampleIntent).result.decision = 0 ∧
    (compare_intent cmpAllow1 AppMode.soft 0 [allowWriteB] sampleIntent).result.slice_similarities = ⟨0, 0, 0, 0⟩ ∧
    (compare_intent cmpAllow1 AppMode.soft 0 [allowWriteB] sampleIntent).result.evidence = [] :=
  no_applicable_fail_closed cmpAllow1 AppMode.soft 0 [allowWriteB] sampleIntent
    (by decide) (by decide)

/-- C3: with no active policies installed at all (cold start), the enforcement
call returns decision 1 (ALLOW), empty evidence and a warning; and this is the
only case in which absence of policies does not imply BLOCK — whenever active
policies exist but none is applicable, the decision is 0. -/
theorem cold_start_fail_open (cmp : DesignBoundary → ℕ × Sims) (mode : AppMode)
    (minScore : ℚ) (store : List DesignBoundary) (event : IntentEvent)
    (h : activeOf store = []) :
    ((compare_intent cmp mode minScore store event).result.decision = 1 ∧
     (compare_intent cmp mode minScore store event).result.evidence = [] ∧
     (compare_intent cmp mode minScore store event).warnings ≠ []) ∧
    (∀ (store' : List DesignBoundary) (event' : IntentEvent),
       activeOf store' ≠ [] →
       applicableOf mode minScore event' (activeOf store') = [] →
       (compare_intent cmp mode minScore store' event').result.decision = 0) := by
  constructor
  · rw [compare_intent_cold cmp mode minScore store event h]
    exact ⟨rfl, rfl, by simp⟩
  · intro store' event' h1 h2
    rw [compare_intent_no_applicable cmp mode minScore store' event' h1 h2]

theorem cold_start_fail_open_witness :
    (compare_intent cmpAllow1 AppMode.soft 0 [disabledB] sampleIntent).result.decision = 1 ∧
    (compare_intent cmpAllow1 AppMode.soft 0 [disabledB] sampleIntent).warnings ≠ [] ∧
    (compare_intent cmpAllow1 AppMode.soft 0 [allowWriteB] sampleIntent).result.decision = 0 :=
  ⟨((cold_start_fail_open cmpAllow1 AppMode.soft 0 [disabledB] sampleIntent (by decide)).1).1,
   ((cold_start_fail_open cmpAllow1 AppMode.soft 0 [disabledB] sampleIntent (by decide)).1).2.2,
   (cold_start_fail_open cmpAllow1 AppMode.soft 0 [disabledB] sampleIntent (by decide)).2
     [allowWriteB] sampleIntent (by decide) (by decide)⟩

/-- C7 (amended): the evidence list of the Comparison Result contains exactly
one record per evaluated (applicable) policy, in the order of evaluation; a
short-circuiting deny policy's record therefore appears at its own evaluation
position, not necessarily last. -/
theorem evidence_per_evaluated_boundary (cmp : DesignBoundary → ℕ × Sims) (mode : AppMode)
    (minScore : ℚ) (store : List DesignBoundary) (event : IntentEvent) :
    (compare_intent cmp mode minScore store event).result.evidence =
      evidenceOf (resultsOf cmp (applicableOf mode minScore event (activeOf store))) := by
  by_cases h1 : activeOf store = []
  · rw [compare_intent_cold cmp mode minScore store event h1, h1]
    rfl
  · by_cases h2 : applicableOf mode minScore event (activeOf store) = []
    · rw [compare_intent_no_applicable cmp mode minScore store event h1 h2, h2]
      rfl
    · rw [compare_intent_main cmp mode minScore store event h1 h2]

/-- C7 (counterexample): with an applicable matching deny followed by an
applicable allow boundary, the deny short-circuits the verdict to BLOCK, yet
the last evidence record belongs to the allow boundary, not to the deny. -/
theorem deny_evidence_not_last_counterexample :
    (compare_intent cmpDenyMatch AppMode.soft 0 [denyB, allowB] sampleIntent).result.decision = 0 ∧
    firstMatchingDeny (resultsOf cmpDenyMatch
      (applicableOf AppMode.soft 0 sampleIntent (activeOf [denyB, allowB])))
      = some (denyB, cmpDenyMatch denyB) ∧
    ((compare_intent cmpDenyMatch AppMode.soft 0 [denyB, allowB] sampleIntent).result.evidence.getLast?).map
      BoundaryEvidence.boundary_id = some "allow_1" ∧
    (mkEvidence (denyB, cmpDenyMatch denyB)).boundary_id = "deny_1" ∧
    ("deny_1" : String) ≠ "allow_1" := by
  exact ⟨by decide, by decide, by decide, by decide, by decide⟩

/-- C4: for every tool-call enforcement performed by the streaming proxy, an
enforcement transport error is turned into a raised `PermissionError`
(fail-closed), in both Data Plane and Management Plane mode; the proxy returns
"allowed" only when the transport succeeded with a non-zero decision. -/
theorem proxy_transport_error_fail_closed (enforcementMode : String) (softBlock : Bool) :
    (∀ (s : GrpcStatus) (h : HttpOutcome), enforcementMode = "data_plane" →
       enforceToolCall enforcementMode softBlock (.rpcError s) h = .raisedPermissionError) ∧
    (∀ (g : GrpcOutcome), enforcementMode ≠ "data_plane" →
       enforceToolCall enforcementMode softBlock g .httpError = .raisedPermissionError) ∧
    (∀ (g : GrpcOutcome) (h : HttpOutcome),
       enforceToolCall enforcementMode softBlock g h = .allowed →
       ∃ r, (if enforcementMode = "data_plane" then dataPlaneEnforce g
             else enforceIntentHttp h) = Except.ok r ∧ r.decision ≠ 0) := by
  refine ⟨?_, ?_, ?_⟩
  · intro s h hm
    simp only [enforceToolCall, if_pos hm]
    cases s <;> rfl
  · intro g hm
    simp only [enforceToolCall, if_neg hm]
    rfl
  · intro g h hallow
    simp only [enforceToolCall] at hallow
    split at hallow
    · exact absurd hallow (by simp)
    · rename_i res hres
      refine ⟨res, hres, ?_⟩
      intro h0
      simp only [handleDecision, if_pos h0] at hallow
      cases softBlock <;> simp at hallow

theorem proxy_transport_error_fail_closed_witness :
    enforceToolCall "data_plane" true (.rpcError .deadlineExceeded) (.ok ⟨1⟩) = .raisedPermissionError ∧
    enforceToolCall "management_plane" true (.ok ⟨1⟩) .httpError = .raisedPermissionError :=
  ⟨(proxy_transport_error_fail_closed "data_plane" true).1 .deadlineExceeded (.ok ⟨1⟩) rfl,
   (proxy_transport_error_fail_closed "management_plane" true).2.1 (.ok ⟨1⟩) (by decide)⟩

/-- C6: the applicability filter returns not-applicable (with score 0 and only
core-rule outcomes recorded) as soon as any core rule mismatches; otherwise its
score is the spec's soft score over the non-abstaining soft rules, which lies
in `[0,1]`, equals 1 when every soft rule abstains, and in soft mode the
policy is applicable iff `minScore ≤ score`. -/
theorem applicability_filter_spec (minScore : ℚ) (i : IntentEvent) (b : DesignBoundary) :
    ((∃ r ∈ coreRules, r.eval i b = .ruleMismatch) →
       (evaluate_applicability .soft minScore i b).applicable = false ∧
       (evaluate_applicability .soft minScore i b).score = 0 ∧
       ∀ o ∈ (evaluate_applicability .soft minScore i b).outcomes,
         o.rule_id ∈ coreRules.map ARule.id) ∧
    ((∀ r ∈ coreRules, r.eval i b ≠ .ruleMismatch) →
       (evaluate_applicability .soft minScore i b).score = softScore i b ∧
       0 ≤ softScore i b ∧ softScore i b ≤ 1 ∧
       ((∀ r ∈ softRules, r.eval i b = .ruleAbstain) → softScore i b = 1) ∧
       (evaluate_applicability .soft minScore i b).applicable =
         decide (minScore ≤ softScore i b)) := by
  constructor
  · intro hm
    obtain ⟨hstop, hids⟩ := runCore_mismatch i b coreRules hm
    rcases hrc : runCore i b coreRules with ⟨cos, m⟩
    rw [hrc] at hstop hids
    simp only at hstop
    subst hstop
    have hev : evaluate_applicability .soft minScore i b = ⟨false, 0, cos⟩ := by
      simp only [evaluate_applicability, hrc]
      rfl
    rw [hev]
    exact ⟨rfl, rfl, hids⟩
  · intro hm
    have hrc := runCore_no_mismatch i b coreRules hm
    have hrs := runSoft_spec i b softRules
    have hev : evaluate_applicability .soft minScore i b =
        ⟨decide (minScore ≤ softScore i b), softScore i b,
         outcomesOf i b coreRules ++ outcomesOf i b softRules⟩ := by
      simp only [evaluate_applicability, hrc, hrs]
      simp only [softScore, softNum, softDen, participatingSoft]
      rfl
    rw [hev]
    exact ⟨rfl, (softScore_bounds i b).1, (softScore_bounds i b).2,
      softScore_all_abstain i b, rfl⟩

theorem applicability_filter_spec_witness :
    (evaluate_applicability AppMode.soft 0 sampleIntent allowWriteB).applicable = false ∧
    (evaluate_applicability AppMode.soft 0 sampleIntent allowB).applicable =
      decide ((0 : ℚ) ≤ softScore sampleIntent allowB) :=
  ⟨((applicability_filter_spec 0 sampleIntent allowWriteB).1 (by decide)).1,
   ((applicability_filter_spec 0 sampleIntent allowB).2 (by decide)).2.2.2.2⟩

/-- C1: whenever the evaluated applicable set contains a deny policy whose
local decision is 1, the final decision is BLOCK (0) — for every sandbox
outcome on the other (in particular allow) policies — and the top-level
slice_similarities are the similarities of the first such deny policy in
evaluation order; moreover the first-matching-deny lookup succeeds exactly
when some evaluated deny policy's local decision is 1. -/
theorem deny_short_circuit_blocks (cmp : DesignBoundary → ℕ × Sims) (mode : AppMode)
    (minScore : ℚ) (store : List DesignBoundary) (event : IntentEvent) (r : BResult)
    (h : firstMatchingDeny (resultsOf cmp (applicableOf mode minScore event (activeOf store)))
      = some r) :
    (compare_intent cmp mode minScore store event).result.decision = 0 ∧
    (compare_intent cmp mode minScore store event).result.slice_similarities = r.2.2 ∧
    r ∈ denyOf (resultsOf cmp (applicableOf mode minScore event (activeOf store))) ∧
    r.2.1 = 1 ∧
    (∀ results : List BResult,
      (∃ x ∈ denyOf results, x.2.1 = 1) ↔ ∃ y, firstMatchingDeny results = some y) := by
  have h' : List.find? (fun y => y.2.1 = 1)
      (denyOf (resultsOf cmp (applicableOf mode minScore event (activeOf store)))) = some r := h
  have hmem : r ∈ denyOf (resultsOf cmp (applicableOf mode minScore event (activeOf store))) :=
    List.mem_of_find?_eq_some h'
  have hdec : r.2.1 = 1 := by
    have hb := List.find?_some h'
    simpa using hb
  have hres : resultsOf cmp (applicableOf mode minScore event (activeOf store)) ≠ [] := by
    intro hnil
    rw [hnil] at hmem
    exact absurd hmem (by simp [denyOf])
  have h2 : applicableOf mode minScore event (activeOf store) ≠ [] := by
    intro hnil
    exact hres (by rw [hnil]; rfl)
  have h1 : activeOf store ≠ [] := activeOf_ne_of_applicable_ne h2
  have hmain := compare_intent_main cmp mode minScore store event h1 h2
  have hagg := aggregate_of_deny h
  have hDec : (compare_intent cmp mode minScore store event).result.decision =
      (aggregate (resultsOf cmp (applicableOf mode minScore event (activeOf store)))).1 := by
    rw [hmain]
  have hSims : (compare_intent cmp mode minScore store event).result.slice_similarities =
      (aggregate (resultsOf cmp (applicableOf mode minScore event (activeOf store)))).2 := by
    rw [hmain]
  refine ⟨?_, ?_, hmem, hdec, ?_⟩
  · rw [hDec, hagg]
  · rw [hSims, hagg]
  · intro results
    constructor
    · rintro ⟨x, hx, hx1⟩
      have hsome : (List.find? (fun y => y.2.1 = 1) (denyOf results)).isSome := by
        rw [List.find?_isSome]
        exact ⟨x, hx, by simp [hx1]⟩
      obtain ⟨y, hy⟩ := Option.isSome_iff_exists.mp hsome
      exact ⟨y, by simpa [firstMatchingDeny] using hy⟩
    · rintro ⟨y, hy⟩
      have hy' : List.find? (fun z => z.2.1 = 1) (denyOf results) = some y := by
        simpa [firstMatchingDeny] using hy
      refine ⟨y, List.mem_of_find?_eq_some hy', ?_⟩
      have hb := List.find?_some hy'
      simpa using hb

theorem deny_short_circuit_blocks_witness :
    (compare_intent cmpDenyMatch AppMode.soft 0 [allowB, denyB] sampleIntent).result.decision = 0 ∧
    (compare_intent cmpDenyMatch AppMode.soft 0 [allowB, denyB] sampleIntent).result.slice_similarities
      = (denyB, cmpDenyMatch denyB).2.2 :=
  ⟨(deny_short_circuit_blocks cmpDenyMatch AppMode.soft 0 [allowB, denyB] sampleIntent
      (denyB, cmpDenyMatch denyB) (by decide)).1,
   (deny_short_circuit_blocks cmpDenyMatch AppMode.soft 0 [allowB, denyB] sampleIntent
      (denyB, cmpDenyMatch denyB) (by decide)).2.1⟩

/-- C5: when applicable policies exist and no deny policy matched: with no
mandatory allow policy the decision is BLOCK; otherwise the decision is ALLOW
iff every mandatory allow policy's local decision is 1, the top-level
slice_similarities are the element-wise average of the mandatory-allow
similarities on ALLOW and their element-wise minimum on BLOCK; and optional
allow results never change the aggregate verdict. -/
theorem allow_phase_aggregation (cmp : DesignBoundary → ℕ × Sims) (mode : AppMode)
    (minScore : ℚ) (store : List DesignBoundary) (event : IntentEvent)
    (results : List BResult)
    (hres : results = resultsOf cmp (applicableOf mode minScore event (activeOf store)))
    (h2 : applicableOf mode minScore event (activeOf store) ≠ [])
    (hnd : firstMatchingDeny results = none) :
    (mandatoryAllowOf results = [] →
      (compare_intent cmp mode minScore store event).result.decision = 0) ∧
    (mandatoryAllowOf results ≠ [] →
      ((compare_intent cmp mode minScore store event).result.decision = 1 ↔
        ∀ x ∈ mandatoryAllowOf results, x.2.1 = 1) ∧
      ((compare_intent cmp mode minScore store event).result.decision = 1 →
        (compare_intent cmp mode minScore store event).result.slice_similarities =
          avgSims ((mandatoryAllowOf results).map (fun x => x.2.2))) ∧
      ((compare_intent cmp mode minScore store event).result.decision = 0 →
        (compare_intent cmp mode minScore store event).result.slice_similarities =
          minSims ((mandatoryAllowOf results).map (fun x => x.2.2)))) ∧
    (∀ anyResults : List BResult,
      aggregate (anyResults.filter
        (fun x => ¬(x.1.rules.effect = "allow" ∧ x.1.type = "optional"))) =
        aggregate anyResults) := by
  subst hres
  have h1 : activeOf store ≠ [] := activeOf_ne_of_applicable_ne h2
  have hmain := compare_intent_main cmp mode minScore store event h1 h2
  have hagg := aggregate_of_no_deny hnd
  have hDec : (compare_intent cmp mode minScore store event).result.decision =
      (aggregate (resultsOf cmp (applicableOf mode minScore event (activeOf store)))).1 := by
    rw [hmain]
  have hSims : (compare_intent cmp mode minScore store event).result.slice_similarities =
      (aggregate (resultsOf cmp (applicableOf mode minScore event (activeOf store)))).2 := by
    rw [hmain]
  refine ⟨?_, ?_, aggregate_drop_optional_allow⟩
  · intro hm
    rw [hDec, hagg, if_pos hm]
  · intro hm
    by_cases hall : (mandatoryAllowOf (resultsOf cmp
        (applicableOf mode minScore event (activeOf store)))).all (fun x => x.2.1 = 1)
    · have hfin : aggregate (resultsOf cmp (applicableOf mode minScore event (activeOf store))) =
        (1, avgSims ((mandatoryAllowOf (resultsOf cmp
          (applicableOf mode minScore event (activeOf store)))).map (fun x => x.2.2))) := by
        rw [hagg, if_neg hm, if_pos hall]
      have hd1 : (compare_intent cmp mode minScore store event).result.decision = 1 := by
        rw [hDec, hfin]
      refine ⟨?_, ?_, ?_⟩
      · rw [hd1]
        constructor
        · intro _ x hx
          exact of_decide_eq_true (List.all_eq_true.mp hall x hx)
        · intro _
          rfl
      · intro _
        rw [hSims, hfin]
      · intro hzero
        rw [hd1] at hzero
        exact absurd hzero (by decide)
    · have hfin : aggregate (resultsOf cmp (applicableOf mode minScore event (activeOf store))) =
        (0, minSims ((mandatoryAllowOf (resultsOf cmp
          (applicableOf mode minScore event (activeOf store)))).map (fun x => x.2.2))) := by
        rw [hagg, if_neg hm, if_neg hall]
      have hd0 : (compare_intent cmp mode minScore store event).result.decision = 0 := by
        rw [hDec, hfin]
      refine ⟨?_, ?_, ?_⟩
      · rw [hd0]
        constructor
        · intro hone
          exact absurd hone (by decide)
        · intro hforall
          refine absurd ?_ hall
          rw [List.all_eq_true]
          intro x hx
          exact decide_eq_true (hforall x hx)
      · intro hone
        rw [hd0] at hone
        exact absurd hone (by decide)
      · intro _
        rw [hSims, hfin]

theorem allow_phase_aggregation_witness :
    (compare_intent cmpAllow1 AppMode.soft 0 [allowB, optionalAllowB] sampleIntent).result.decision = 1 :=
  ((allow_phase_aggregation cmpAllow1 AppMode.soft 0 [allowB, optionalAllowB] sampleIntent
      (resultsOf cmpAllow1 (applicableOf AppMode.soft 0 sampleIntent
        (activeOf [allowB, optionalAllowB]))) rfl (by decide) (by decide)).2.1
    (by decide)).1.mpr (by decide)

/-- C8: for any two policies whose per-slice constraint lists contain the same
values in different orders (and identical scalar constraints), anchor
generation produces identical anchor text lists for all four slices, and hence
identical anchor matrices and per-slice anchor counts under any deterministic
per-slot encoder. -/
theorem anchor_encoding_sort_invariant (b₁ b₂ : DesignBoundary)
    (ha : b₁.constraints.action.actions.Perm b₂.constraints.action.actions)
    (ht : b₁.constraints.action.actor_types.Perm b₂.constraints.action.actor_types)
    (hr : b₁.constraints.resource.types.Perm b₂.constraints.resource.types)
    (hl : b₁.constraints.resource.locations.Perm b₂.constraints.resource.locations)
    (hn : b₁.constraints.resource.names.Perm b₂.constraints.resource.names)
    (hs : b₁.constraints.data.sensitivity.Perm b₂.constraints.data.sensitivity)
    (hp : b₁.constraints.data.pii = b₂.constraints.data.pii)
    (hv : b₁.constraints.data.volume = b₂.constraints.data.volume)
    (hq : b₁.constraints.risk.authn = b₂.constraints.risk.authn) :
    build_boundary_action_anchors b₁ = build_boundary_action_anchors b₂ ∧
    build_boundary_resource_anchors b₁ = build_boundary_resource_anchors b₂ ∧
    build_boundary_data_anchors b₁ = build_boundary_data_anchors b₂ ∧
    build_boundary_risk_anchors b₁ = build_boundary_risk_anchors b₂ ∧
    ∀ (α : Type) (enc : String → α) (zero : α) (maxAnchors : ℕ),
      encode_anchors_to_32d enc zero maxAnchors (build_boundary_action_anchors b₁) =
        encode_anchors_to_32d enc zero maxAnchors (build_boundary_action_anchors b₂) ∧
      encode_anchors_to_32d enc zero maxAnchors (build_boundary_resource_anchors b₁) =
        encode_anchors_to_32d enc zero maxAnchors (build_boundary_resource_anchors b₂) ∧
      encode_anchors_to_32d enc zero maxAnchors (build_boundary_data_anchors b₁) =
        encode_anchors_to_32d enc zero maxAnchors (build_boundary_data_anchors b₂) ∧
      encode_anchors_to_32d enc zero maxAnchors (build_boundary_risk_anchors b₁) =
        encode_anchors_to_32d enc zero maxAnchors (build_boundary_risk_anchors b₂) := by
  have hact : build_boundary_action_anchors b₁ = build_boundary_action_anchors b₂ := by
    unfold build_boundary_action_anchors
    rw [pySorted_perm_eq ha, pySorted_perm_eq ht]
  have hresr : build_boundary_resource_anchors b₁ = build_boundary_resource_anchors b₂ := by
    unfold build_boundary_resource_anchors
    have hlocs : (if b₁.constraints.resource.locations = [] then ["unspecified"]
        else b₁.constraints.resource.locations).Perm
        (if b₂.constraints.resource.locations = [] then ["unspecified"]
        else b₂.constraints.resource.locations) := by
      by_cases hemp : b₁.constraints.resource.locations = []
      · have hemp2 : b₂.constraints.resource.locations = [] := by
          rw [hemp] at hl
          exact hl.symm.eq_nil
        rw [if_pos hemp, if_pos hemp2]
      · have hemp2 : b₂.constraints.resource.locations ≠ [] := by
          intro hh
          rw [hh] at hl
          exact hemp hl.eq_nil
        rw [if_neg hemp, if_neg hemp2]
        exact hl
    rw [pySorted_perm_eq hr, pySorted_perm_eq hlocs]
    by_cases hnm : b₁.constraints.resource.names = []
    · have hnm2 : b₂.constraints.resource.names = [] := by
        rw [hnm] at hn
        exact hn.symm.eq_nil
      rw [if_pos hnm, if_pos hnm2]
    · have hnm2 : b₂.constraints.resource.names ≠ [] := by
        intro hh
        rw [hh] at hn
        exact hnm hn.eq_nil
      rw [if_neg hnm, if_neg hnm2, pySorted_perm_eq hn]
  have hdat : build_boundary_data_anchors b₁ = build_boundary_data_anchors b₂ := by
    unfold build_boundary_data_anchors
    rw [hp, hv, pySorted_perm_eq hs]
  have hrisk : build_boundary_risk_anchors b₁ = build_boundary_risk_anchors b₂ := by
    unfold build_boundary_risk_anchors
    rw [hq]
  refine ⟨hact, hresr, hdat, hrisk, ?_⟩
  intro α enc zero maxAnchors
  rw [hact, hresr, hdat, hrisk]
  exact ⟨rfl, rfl, rfl, rfl⟩

theorem anchor_encoding_sort_invariant_witness :
    build_boundary_action_anchors permB1 = build_boundary_action_anchors permB2 ∧
    encode_anchors_to_32d (fun _ => (0 : ℕ)) 0 16 (build_boundary_data_anchors permB1) =
      encode_anchors_to_32d (fun _ => (0 : ℕ)) 0 16 (build_boundary_data_anchors permB2) :=
  ⟨(anchor_encoding_sort_invariant permB1 permB2 (by decide) (by decide) (by decide)
      (by decide) (by decide) (by decide) rfl rfl rfl).1,
   ((anchor_encoding_sort_invariant permB1 permB2 (by decide) (by decide) (by decide)
      (by decide) (by decide) (by decide) rfl rfl rfl).2.2.2.2
      ℕ (fun _ => 0) 0 16).2.2.1⟩

/-- C9: the session baseline is set by `initialize_session_vector` only when it
is currently absent (the first writer wins; a later call for the same agent is
a complete no-op), and once set, no session-store operation (`write_call`,
`initialize_session_vector`, `compute_and_update_drift`, `cleanup_expired`)
ever overwrites it — a row either keeps its baseline or is deleted whole. -/
theorem session_baseline_immutable (db : SessionDB) (a : String) (r : SessionRow) (v : List ℚ)
    (h : db a = some r) (hv : r.initial_vector = some v) :
    (∀ w, initSessionVector a w db = db) ∧
    (∀ (db2 : SessionDB) (a2 : String) (r2 : SessionRow) (w : List ℚ),
        db2 a2 = some r2 → r2.initial_vector = none →
        (initSessionVector a2 w db2) a2 = some { r2 with initial_vector := some w }) ∧
    (∀ (db2 : SessionDB) (a2 : String) (w : List ℚ), db2 a2 = none →
        initSessionVector a2 w db2 = db2) ∧
    (∀ a2 rq ac dc now, ∃ r2, (write_call a2 rq ac dc now db) a = some r2 ∧
        r2.initial_vector = some v) ∧
    (∀ a2 cur now, ∃ r2, ((compute_and_update_drift a2 cur now db).1) a = some r2 ∧
        r2.initial_vector = some v) ∧
    (∀ now, (cleanup_expired now db) a = none ∨ (cleanup_expired now db) a = some r) := by
  refine ⟨?_, ?_, ?_, ?_, ?_, ?_⟩
  · intro w
    funext k
    by_cases hk : k = a
    · subst hk
      simp [initSessionVector, h, hv]
    · simp [initSessionVector, hk]
  · intro db2 a2 r2 w h2 hn
    simp [initSessionVector, h2, hn]
  · intro db2 a2 w h2
    funext k
    by_cases hk : k = a2
    · subst hk
      simp [initSessionVector, h2]
    · simp [initSessionVector, hk]
  · intro a2 rq ac dc now
    by_cases hk : a = a2
    · subst hk
      refine ⟨{ r with
          action_history := r.action_history ++ [⟨rq, ac, dc, now⟩],
          call_count := r.call_count + 1,
          last_seen_at := now }, ?_, ?_⟩
      · simp [write_call, h]
      · simpa using hv
    · exact ⟨r, by simp [write_call, hk, h], hv⟩
  · intro a2 cur now
    rcases hda2 : db a2 with _ | r3
    · exact ⟨r, by simp [compute_and_update_drift, hda2, h], hv⟩
    · rcases hiv : r3.initial_vector with _ | iv
      · exact ⟨r, by simp [compute_and_update_drift, hda2, hiv, h], hv⟩
      · by_cases hk : a = a2
        · subst hk
          have hr3 : r3 = r := by
            rw [h] at hda2
            exact (Option.some_inj.mp hda2).symm
          subst hr3
          refine ⟨{ r3 with
              cumulative_drift := r3.cumulative_drift + max 0 (1 - dotQ iv cur),
              last_vector := some cur,
              last_seen_at := now }, ?_, ?_⟩
          · simp [compute_and_update_drift, hda2, hiv]
          · simpa using hv
        · exact ⟨r, by simp [compute_and_update_drift, hda2, hiv, hk, h], hv⟩
  · intro now
    by_cases hc : r.last_seen_at < now - 1800 ∨ r.created_at < now - 86400
    · left
      simp [cleanup_expired, h, hc]
    · right
      simp [cleanup_expired, h, hc]

theorem session_baseline_immutable_witness :
    initSessionVector "agent_a" [5] db0 = db0 :=
  (session_baseline_immutable db0 "agent_a" row0 [1, 0] rfl rfl).1 [5]

/-- C10: of the four proxy entry points, only `invoke` and `stream` reset the
enforced-tool-call-id set on entry; `ainvoke` and `astream` do not, so a
tool-call id enforced in a previous invocation is skipped (not enforced again)
when it reappears in a new async invocation — the code contradicts the
reset-each-invocation contract for the async entry points. -/
theorem async_entry_skips_enforced_ids :
    (processToolCallIds (invokeEntryEnforcedIds ["tc1"]) ["tc1"]).2 = ["tc1"] ∧
    (processToolCallIds (streamEntryEnforcedIds ["tc1"]) ["tc1"]).2 = ["tc1"] ∧
    (processToolCallIds (ainvokeEntryEnforcedIds ["tc1"]) ["tc1"]).2 = [] ∧
    (processToolCallIds (astreamEntryEnforcedIds ["tc1"]) ["tc1"]).2 = [] := by
  exact ⟨by decide, by decide, by decide, by decide⟩

end Guard
